import Mathlib

/-!
Verification development for the eflips-kyoto rotation-assembly pipeline
(src/main.py and src/scripts/prepare.py).

The pipeline's entities (rows of the relational store, scoped to one
scenario) are embedded as plain Lean structures: a Scenario owns its
stations, routes, vehicle types and rotations; a rotation owns its ordered
trip list; a trip owns its stop-time records and events.  Machine floats of
the source are modelled as rationals, timestamps as integer minute counts,
and SQL row identity as a Nat-valued id field.  Fallible code (queries with
one / one_or_none semantics, list indexing, assertions, division by zero,
the explicit raise statements) is modelled with Except over an error type
whose constructors name the concrete Python failure.  Columns that none of
the modelled functions ever read (geometry, charging power, names of
vehicles, ...) are kept only where a modelled function writes or reads
them.
-/

/- Rational arithmetic of the standard library is marked irreducible for
elaborator performance; concrete witness evaluations below go through
kernel reduction, so the four arithmetic operations are made reducible
for this file. -/
set_option allowUnsafeReducibility true

attribute [local reducible] Rat.mul Rat.add Rat.sub Rat.inv

/-- Error outcomes of the modelled pipeline stages.  Each constructor
names a concrete failure of the Python source: valueError is the explicit
ValueError raise for a pre-existing depot, noResult / multipleResults are
the failure modes of SQLAlchemy's one and one_or_none, indexError is a
list index out of range, insufficientData is the ZeroDivisionError hit
when the scenario holds no driving events (named InsufficientDataError by
the specification), zeroDivision is any other division by zero,
assertionFailed is a failed assert statement, inputShape is the
interactive breakpoint on a negative SOC delta (named InputShapeError by
the specification), and notImplemented is a NotImplementedError raise. -/
inductive Err where
  | valueError
  | noResult
  | multipleResults
  | indexError
  | insufficientData
  | zeroDivision
  | assertionFailed
  | inputShape
  | notImplemented
deriving DecidableEq, Repr

/-- Trip kind tag of the eflips model (TripType).  Revenue trips of the
input data are PASSENGER; inserted deadhead trips are EMPTY. -/
inductive TripType where
  | EMPTY
  | PASSENGER
deriving DecidableEq, Repr

/-- Event kind tag of the eflips model (EventType); only DRIVING events
are read or written by the modelled functions, other kinds are collapsed
into one alternative. -/
inductive EventType where
  | DRIVING
  | OTHER
deriving DecidableEq, Repr

/-- Station row: a named point location.  The id field models SQL row
identity (the source compares station objects by identity). -/
structure Station where
  id : Nat
  name : String
  name_short : String
deriving DecidableEq, Repr

/-- Vehicle type row with its battery capacity (kWh). -/
structure VehicleType where
  id : Nat
  name : String
  battery_capacity : ℚ
deriving DecidableEq, Repr

/-- Route row: a directed edge between two stations (referenced by
station id) with a distance in meters. -/
structure Route where
  departure_station : Nat
  arrival_station : Nat
  name : String
  name_short : String
  distance : ℚ
deriving DecidableEq, Repr

/-- Vehicle row as created by fix_driving_events.  The id models SQL row
identity of the freshly inserted vehicle; the source derives the name
fields from the owning rotation's id. -/
structure Vehicle where
  id : Nat
  name : String
  name_short : String
  vehicle_type : VehicleType
deriving DecidableEq, Repr

/-- Event row: a driving-energy record attached to one trip (by nesting)
and optionally one vehicle (by id).  SOC values are fractions. -/
structure Event where
  event_type : EventType
  vehicle : Option Nat
  vehicle_type : VehicleType
  time_start : Int
  time_end : Int
  soc_start : ℚ
  soc_end : ℚ
deriving DecidableEq, Repr

/-- Trip row: one traversal of a route.  Stop-time child rows carry no
data read by the modelled functions and are kept as bare ids; events are
the trip's (driving) event children.  Times are integer minute counts. -/
structure Trip where
  id : Nat
  route : Route
  departure_time : Int
  arrival_time : Int
  trip_type : TripType
  loaded_mass : ℚ
  stop_times : List Nat
  events : List Event
deriving DecidableEq, Repr

/-- Rotation row: an ordered mutable sequence of trips, a vehicle type,
and at most one assigned vehicle. -/
structure Rotation where
  id : Nat
  vehicle_type : VehicleType
  trips : List Trip
  vehicle : Option Vehicle
deriving DecidableEq, Repr

/-- One scenario's slice of the relational store: the rows of every table
the modelled functions touch, each list standing for a scenario-filtered
query result in its iteration order. -/
structure Scenario where
  stations : List Station
  routes : List Route
  vehicle_types : List VehicleType
  rotations : List Rotation
deriving DecidableEq, Repr

/-! ## Depot-anchor inserter (prepare.py, add_empty_trips, lines 28-126) -/

/-- Depot station name constant of add_empty_trips. -/
def DEPOT_NAME : String := "九条車庫前"

/-- Terminal station name looked up by add_empty_trips. -/
def TERMINAL_NAME : String := "北大路バスターミナル（地下鉄北大路駅）"

/-- Deadhead trip duration in minutes (timedelta of 6 minutes). -/
def DEPOT_TRIP_DURATION : Int := 6

/-- Deadhead route length in meters. -/
def DEPOT_TRIP_DISTANCE : ℚ := 3100

/-- Break before/after a deadhead trip in minutes (timedelta of 5). -/
def BREAK_DURATION : Int := 5

/-- Model of Query.one on the scenario's stations filtered by name:
exactly one matching row, otherwise NoResultFound / MultipleResultsFound. -/
def queryOneStation (stations : List Station) (name : String) : Except Err Station :=
  match stations.filter (fun st => st.name == name) with
  | [st] => Except.ok st
  | [] => Except.error Err.noResult
  | _ => Except.error Err.multipleResults

/-- Fresh row id for the inserted depot station, distinct from every
existing station id. -/
def freshStationId (s : Scenario) : Nat :=
  (s.stations.map Station.id).foldr max 0 + 1

/-- Largest trip id present in the scenario; inserted deadhead trips get
fresh ids above it. -/
def maxTripId (s : Scenario) : Nat :=
  ((s.rotations.map (fun r => (r.trips.map Trip.id).foldr max 0)).foldr max 0)

/-- Deadhead trip constructor used by add_empty_trips: EMPTY kind, zero
loaded mass, no stop times and no events (lines 101-108 and 116-123). -/
def mkDepotTrip (route : Route) (tid : Nat) (dep arr : Int) : Trip :=
  { id := tid, route := route, departure_time := dep, arrival_time := arr,
    trip_type := TripType.EMPTY, loaded_mass := 0, stop_times := [], events := [] }

/-- Per-rotation body of the insertion loop (lines 97-126): the inbound
deadhead trip ends BREAK_DURATION before the original first trip and is
prepended; the outbound one starts BREAK_DURATION after the original last
trip and is appended.  An empty rotation raises IndexError at
rotation.trips[0]. -/
def addTripsToRotation (dep2term term2dep : Route) (b : Nat) (r : Rotation) :
    Except Err Rotation :=
  match r.trips with
  | [] => Except.error Err.indexError
  | t0 :: rest =>
    let inbound := mkDepotTrip dep2term b
      (t0.departure_time - BREAK_DURATION - DEPOT_TRIP_DURATION)
      (t0.departure_time - BREAK_DURATION)
    let tl := (t0 :: rest).getLastD t0
    let outbound := mkDepotTrip term2dep (b + 1)
      (tl.arrival_time + BREAK_DURATION)
      (tl.arrival_time + BREAK_DURATION + DEPOT_TRIP_DURATION)
    Except.ok { r with trips := inbound :: (r.trips ++ [outbound]) }

/-- Insertion loop over all rotations of the scenario, threading the
fresh-id counter (each rotation consumes two new trip ids). -/
def addTripsToRotations (dep2term term2dep : Route) :
    Nat → List Rotation → Except Err (List Rotation)
  | _, [] => Except.ok []
  | b, r :: rs =>
    match addTripsToRotation dep2term term2dep b r with
    | Except.error e => Except.error e
    | Except.ok r2 =>
      match addTripsToRotations dep2term term2dep (b + 2) rs with
      | Except.error e => Except.error e
      | Except.ok rs2 => Except.ok (r2 :: rs2)

/-- Depot-anchor inserter (prepare.py lines 28-126).  Refuses a scenario
that already holds a station named DEPOT_NAME (ValueError; two or more
such rows make one_or_none raise MultipleResultsFound), creates the depot
station and the two fixed deadhead routes between depot and the terminal
station looked up by name, then prepends/appends a deadhead trip to every
rotation. -/
def add_empty_trips (s : Scenario) : Except Err Scenario :=
  match s.stations.filter (fun st => st.name == DEPOT_NAME) with
  | _ :: _ :: _ => Except.error Err.multipleResults
  | [_] => Except.error Err.valueError
  | [] =>
    let depot : Station := { id := freshStationId s, name := DEPOT_NAME, name_short := "DEP" }
    match queryOneStation s.stations TERMINAL_NAME with
    | Except.error e => Except.error e
    | Except.ok terminal =>
      let dep2term : Route :=
        { departure_station := depot.id, arrival_station := terminal.id,
          name := "九条車庫前 → 北大路バスターミナル", name_short := "DEP_TERM",
          distance := DEPOT_TRIP_DISTANCE }
      let term2dep : Route :=
        { departure_station := terminal.id, arrival_station := depot.id,
          name := "北大路バスターミナル → 九条車庫前", name_short := "TERM_DEP",
          distance := DEPOT_TRIP_DISTANCE }
      match addTripsToRotations dep2term term2dep (maxTripId s + 1) s.rotations with
      | Except.error e => Except.error e
      | Except.ok rots =>
        Except.ok { s with stations := s.stations ++ [depot],
                           routes := s.routes ++ [dep2term, term2dep],
                           rotations := rots }

/-! ## Connectivity validator and pruner
(prepare.py, delete_invalid_rotations_and_trips, lines 129-174; the
connectivity half is identical to delete_invalid_rotations of main.py,
lines 138-157). -/

/-- Inner connectivity scan of one rotation, mirroring the Python loop
literally: it walks the enumerated trip list; for each index i whose trip
is not the last trip of the list (object identity, modelled as id
equality), it reads trips[i+1] (an out-of-range read would be an
IndexError, hence the Except) and counts a flag when the arrival station
of trips[i] differs from the departure station of trips[i+1].  The
returned number is how many times the rotation is appended to
rotations_to_delete. -/
def flagCountAux (all : List Trip) (last : Trip) :
    List (Nat × Trip) → Except Err Nat
  | [] => Except.ok 0
  | (i, t) :: rest =>
    if t.id = last.id then
      flagCountAux all last rest
    else
      match all[i + 1]? with
      | none => Except.error Err.indexError
      | some nxt =>
        match flagCountAux all last rest with
        | Except.error e => Except.error e
        | Except.ok m =>
          Except.ok ((if t.route.arrival_station = nxt.route.departure_station then 0 else 1) + m)

/-- Connectivity scan of one rotation's trip list (lines 135-141 of
prepare.py).  An empty list never evaluates trips[-1] because the Python
loop body never runs. -/
def flagCountE (ts : List Trip) : Except Err Nat :=
  match ts.getLast? with
  | none => Except.ok 0
  | some last => flagCountAux ts last ts.enum

/-- Scan over all rotations, producing the rotations_to_delete list (as
rotation ids, with one occurrence per flag, in scan order). -/
def scanRotations : List Rotation → Except Err (List Nat)
  | [] => Except.ok []
  | r :: rs =>
    match flagCountE r.trips with
    | Except.error e => Except.error e
    | Except.ok m =>
      match scanRotations rs with
      | Except.error e => Except.error e
      | Except.ok ids => Except.ok (List.replicate m r.id ++ ids)

/-- Deduplicated invalid set, modelling list(set(rotations_to_delete)) of
line 143 (the Python set iteration order is unspecified; only membership
is ever used, so first-occurrence order is chosen). -/
def rotations_to_delete (s : Scenario) : Except Err (List Nat) :=
  match scanRotations s.rotations with
  | Except.error e => Except.error e
  | Except.ok ids => Except.ok ids.dedup

/-- Connectivity half of the pruner (prepare.py lines 133-155, identical
to delete_invalid_rotations of main.py): every rotation whose id is in the
deduplicated invalid set is deleted together with its trips, their
stop-time rows and their events (all nested inside the rotation value). -/
def delete_invalid_rotations (s : Scenario) : Except Err Scenario :=
  match rotations_to_delete s with
  | Except.error e => Except.error e
  | Except.ok ids =>
    Except.ok { s with rotations := s.rotations.filter (fun r => !(ids.contains r.id)) }

/-- Driving event whose SOC failed to decrease (prepare.py line 161-162):
the scenario-wide query filter event_type == DRIVING and
soc_start <= soc_end. -/
def is_anomalous_event (e : Event) : Bool :=
  decide (e.event_type = EventType.DRIVING) && decide (e.soc_start ≤ e.soc_end)

/-- Trip owning at least one anomalous driving event. -/
def trip_has_anomaly (t : Trip) : Bool :=
  t.events.any is_anomalous_event

/-- Energy-anomaly half of the pruner (prepare.py lines 157-174): for
every anomalous driving event the owning trip is unlinked from its
rotation's trip sequence and deleted together with its stop times and
events; the rotation itself stays.  The model assumes the pipeline
invariant (asserted at lines 305 and 324 of the source) that a trip
carries at most one driving event, so each trip is unlinked at most once. -/
def delete_negative_energy_trips (s : Scenario) : Scenario :=
  { s with rotations := s.rotations.map (fun r =>
      { r with trips := r.trips.filter (fun t => !trip_has_anomaly t) }) }

/-- Full pruner (prepare.py lines 129-174): connectivity pass with
dedup-and-delete, then the scenario-wide energy-anomaly pass over the
state the first pass left (session autoflush makes the second query see
the first pass's deletions). -/
def delete_invalid_rotations_and_trips (s : Scenario) : Except Err Scenario :=
  match delete_invalid_rotations s with
  | Except.error e => Except.error e
  | Except.ok s1 => Except.ok (delete_negative_energy_trips s1)

/-! ## Fleet energy estimator and SOC propagator
(prepare.py, fix_driving_events, lines 262-334). -/

/-- All (owning trip, event) pairs of the scenario, in rotation/trip/event
order; models the scenario-filtered Event query joined back to trips. -/
def scenarioTripEventPairs (s : Scenario) : List (Trip × Event) :=
  s.rotations.flatMap (fun r => r.trips.flatMap (fun t => t.events.map (fun e => (t, e))))

/-- The driving events of the scenario with their owning trips (the query
of lines 276-280). -/
def drivingPairs (s : Scenario) : List (Trip × Event) :=
  (scenarioTripEventPairs s).filter (fun p => decide (p.2.event_type = EventType.DRIVING))

/-- Total energy drawn by all driving events (lines 281-283):
sum of (soc_start - soc_end) * battery capacity of the event's vehicle
type. -/
def sum_of_energy (s : Scenario) : ℚ :=
  ((drivingPairs s).map
    (fun p => (p.2.soc_start - p.2.soc_end) * p.2.vehicle_type.battery_capacity)).sum

/-- Total distance in km driven by those events (line 284). -/
def sum_of_distance (s : Scenario) : ℚ :=
  ((drivingPairs s).map (fun p => p.1.route.distance / 1000)).sum

/-- Fleet-average energy consumption per km (line 286).  A zero distance
total (in particular: no driving events at all) is the Python
ZeroDivisionError, the specification's InsufficientDataError. -/
def average_energy_consumption (s : Scenario) : Except Err ℚ :=
  if sum_of_distance s = 0 then Except.error Err.insufficientData
  else Except.ok (sum_of_energy s / sum_of_distance s)

/-- Model of the Query.one on vehicle types named ElectricBus (lines
293-296), performed once per rotation while building its vehicle. -/
def queryElectricBus (vts : List VehicleType) : Except Err VehicleType :=
  match vts.filter (fun vt => vt.name == "ElectricBus") with
  | [vt] => Except.ok vt
  | [] => Except.error Err.noResult
  | _ => Except.error Err.multipleResults

/-- SOC delta charged to a boundary deadhead trip (lines 308-309):
energy = (distance / 1000) * average consumption, divided by the battery
capacity of the rotation's vehicle type. -/
def boundary_delta_soc (dist avg cap : ℚ) : ℚ :=
  ((dist / 1000) * avg) / cap

/-- Driving event created for a boundary trip (lines 311-321). -/
def mkDrivingEvent (v : Vehicle) (t : Trip) (socS socE : ℚ) : Event :=
  { event_type := EventType.DRIVING, vehicle := some v.id,
    vehicle_type := v.vehicle_type, time_start := t.departure_time,
    time_end := t.arrival_time, soc_start := socS, soc_end := socE }

/-- Inner trip loop of fix_driving_events (lines 301-333), a left fold
carrying the SOC at the start of the next trip.  The first and the last
trip (i = 0 or i = n - 1, n the rotation's trip count) must carry no
event (assert, line 305) and receive a fresh driving event whose delta
comes from the fleet average; every other trip must carry exactly one
event (assert, line 324) whose delta is preserved while its SOC bounds
are rebased onto the carried SOC and its vehicle is re-homed.  A negative
preserved delta hits the interactive breakpoint of line 329, modelled as
the fatal inputShape error per the specification; a zero battery capacity
on the boundary branch is the Python ZeroDivisionError. -/
def fixTrips (avg : ℚ) (v : Vehicle) (rotCap : ℚ) (n : Nat) :
    Nat → ℚ → List Trip → Except Err (List Trip)
  | _, _, [] => Except.ok []
  | i, soc, t :: ts =>
    if i = 0 ∨ i = n - 1 then
      match t.events with
      | [] =>
        if rotCap = 0 then Except.error Err.zeroDivision
        else
          let dsoc := boundary_delta_soc t.route.distance avg rotCap
          let e := mkDrivingEvent v t soc (soc - dsoc)
          match fixTrips avg v rotCap n (i + 1) (soc - dsoc) ts with
          | Except.error err => Except.error err
          | Except.ok ts2 => Except.ok ({ t with events := [e] } :: ts2)
      | _ => Except.error Err.assertionFailed
    else
      match t.events with
      | [e0] =>
        let dsoc := e0.soc_start - e0.soc_end
        if dsoc < 0 then Except.error Err.inputShape
        else
          let e := { e0 with vehicle := some v.id, soc_start := soc, soc_end := soc - dsoc }
          match fixTrips avg v rotCap n (i + 1) (soc - dsoc) ts with
          | Except.error err => Except.error err
          | Except.ok ts2 => Except.ok ({ t with events := [e] } :: ts2)
      | _ => Except.error Err.assertionFailed

/-- Vehicle row created for one rotation (lines 289-298): a fresh row
whose identity is modelled by the owning rotation's id (the source also
bakes that id into the vehicle's name and short name), of the queried
ElectricBus vehicle type. -/
def mkAutoVehicle (ebus : VehicleType) (rid : Nat) : Vehicle :=
  { id := rid,
    name := "Auto-Generated Vehicle for Rotation " ++ toString rid,
    name_short := "V_" ++ toString rid,
    vehicle_type := ebus }

/-- Per-rotation body of fix_driving_events (lines 287-333): look up the
ElectricBus vehicle type, create a fresh vehicle for the rotation (its
row identity modelled by the rotation id the source also bakes into the
vehicle's name and short name), assign it, then run the SOC fold over the
trips starting from a full battery (soc = 1). -/
def fixRotation (avg : ℚ) (vts : List VehicleType) (r : Rotation) : Except Err Rotation :=
  match queryElectricBus vts with
  | Except.error e => Except.error e
  | Except.ok ebus =>
    let v : Vehicle := mkAutoVehicle ebus r.id
    match fixTrips avg v r.vehicle_type.battery_capacity r.trips.length 0 1 r.trips with
    | Except.error e => Except.error e
    | Except.ok ts => Except.ok { r with vehicle := some v, trips := ts }

/-- Rotation loop of fix_driving_events. -/
def fixRotations (avg : ℚ) (vts : List VehicleType) :
    List Rotation → Except Err (List Rotation)
  | [] => Except.ok []
  | r :: rs =>
    match fixRotation avg vts r with
    | Except.error e => Except.error e
    | Except.ok r2 =>
      match fixRotations avg vts rs with
      | Except.error e => Except.error e
      | Except.ok rs2 => Except.ok (r2 :: rs2)

/-- Fleet energy estimator followed by the SOC propagator (prepare.py
lines 262-334): the scenario-wide average is computed first; only then
does the per-rotation pass create vehicles and create/rebase events, so a
failing average leaves every rotation and event untouched. -/
def fix_driving_events (s : Scenario) : Except Err Scenario :=
  match average_energy_consumption s with
  | Except.error e => Except.error e
  | Except.ok avg =>
    match fixRotations avg s.vehicle_types s.rotations with
    | Except.error e => Except.error e
    | Except.ok rots => Except.ok { s with rotations := rots }

/-! ## Top-level pipeline's inserter (main.py, add_empty_trips,
lines 47-135). -/

/-- Depot-anchor inserter of main.py (the function the main pipeline loop
at line 225 actually calls): its body raises NotImplementedError as its
very first statement (line 55), before any query, insert or mutation, so
every invocation fails with the scenario untouched and the remainder of
the function is dead code. -/
def main_add_empty_trips (_s : Scenario) : Except Err Scenario :=
  Except.error Err.notImplemented

/-! ## Specification-side predicates.
These state the claimed properties independently of the scan/fold
implementations above, so the theorems relate the embedded source code to
a second formulation rather than restating a definition. -/

/-- Number of adjacent trip pairs whose stations mismatch, defined by
structural recursion over the trip list (the specification's notion of a
broken chain). -/
def adjMismatchCount : List Trip → Nat
  | [] => 0
  | [_] => 0
  | a :: b :: rest =>
    (if a.route.arrival_station = b.route.departure_station then 0 else 1)
      + adjMismatchCount (b :: rest)

/-- Connectivity invariant of the specification: every adjacent trip pair
of the list joins arrival station to departure station. -/
def noMismatch (ts : List Trip) : Prop :=
  ∀ i a b, ts[i]? = some a → ts[i + 1]? = some b →
    a.route.arrival_station = b.route.departure_station

/-- One delete call issued against the session, used to express the
dependency order of the pruner's cascading deletes. -/
inductive DeleteOp where
  | stop_time_op (tripId : Nat) (st : Nat)
  | event_op (tripId : Nat)
  | trip_op (tripId : Nat)
  | rotation_op (rotId : Nat)
deriving DecidableEq, Repr

/-- Delete calls the pruner issues for one trip, in source order
(prepare.py lines 149-154): its stop times, its events, the trip. -/
def tripDeleteOps (t : Trip) : List DeleteOp :=
  t.stop_times.map (DeleteOp.stop_time_op t.id)
    ++ t.events.map (fun _ => DeleteOp.event_op t.id)
    ++ [DeleteOp.trip_op t.id]

/-- Delete calls for one invalid rotation, in source order (lines
148-155): every trip's block, then the rotation itself. -/
def rotationDeleteOps (r : Rotation) : List DeleteOp :=
  r.trips.flatMap tripDeleteOps ++ [DeleteOp.rotation_op r.id]

/-- SOC bounds (soc_start, soc_end) of the driving events of a trip list,
in trip order. -/
def drivingSocPairs (ts : List Trip) : List (ℚ × ℚ) :=
  ts.flatMap (fun t =>
    (t.events.filter (fun e => decide (e.event_type = EventType.DRIVING))).map
      (fun e => (e.soc_start, e.soc_end)))

/-- Weakly descending SOC record chain below a ceiling c: every pair
starts at or below the running ceiling and does not increase, and its end
becomes the next ceiling. -/
def socBoundedDescent : ℚ → List (ℚ × ℚ) → Prop
  | _, [] => True
  | c, p :: rest => p.1 ≤ c ∧ p.2 ≤ p.1 ∧ socBoundedDescent p.2 rest

/-- Trip owning a driving event whose SOC failed to decrease, stated as a
proposition (the specification's energy anomaly). -/
def hasNegativeEnergyEvent (t : Trip) : Prop :=
  ∃ e ∈ t.events, e.event_type = EventType.DRIVING ∧ e.soc_start ≤ e.soc_end

/-- Relation between an input rotation and its output under the
depot-anchor inserter, as the corrected claim C1 states it: the new
boundary trips are EMPTY deadheads with zero loaded mass whose inner
endpoints are the fixed terminal station, so the adjacency invariant
across either inserted boundary holds exactly when the rotation's
original first (last) trip departs from (arrives at) that terminal. -/
def insertedRotationRel (term : Station) (r r2 : Rotation) : Prop :=
  ∃ inb outb, r2.trips = inb :: (r.trips ++ [outb]) ∧
    inb.trip_type = TripType.EMPTY ∧ inb.loaded_mass = 0 ∧
    outb.trip_type = TripType.EMPTY ∧ outb.loaded_mass = 0 ∧
    inb.route.arrival_station = term.id ∧
    outb.route.departure_station = term.id ∧
    (∀ t0, r.trips.head? = some t0 →
      (inb.route.arrival_station = t0.route.departure_station ↔
        t0.route.departure_station = term.id)) ∧
    (∀ tl, r.trips.getLast? = some tl →
      (outb.route.departure_station = tl.route.arrival_station ↔
        tl.route.arrival_station = term.id))

/-! ## Concrete fixtures for witnesses and counterexamples. -/

/-- Reference electric vehicle type of the fixtures (battery 300 kWh). -/
def vtEB : VehicleType := { id := 0, name := "ElectricBus", battery_capacity := 300 }

/-- Terminal station fixture carrying the name add_empty_trips looks up. -/
def stTerm : Station := { id := 0, name := TERMINAL_NAME, name_short := "TERM" }

/-- An ordinary stop distinct from the terminal. -/
def stOther : Station := { id := 1, name := "Other stop", name_short := "OTH" }

/-- Fixture route between two station ids. -/
def fxRoute (a b : Nat) (d : ℚ) : Route :=
  { departure_station := a, arrival_station := b, name := "R", name_short := "R", distance := d }

/-- Fixture revenue trip. -/
def fxTrip (tid a b : Nat) (d : ℚ) (dep arr : Int) (evs : List Event) : Trip :=
  { id := tid, route := fxRoute a b d, departure_time := dep, arrival_time := arr,
    trip_type := TripType.PASSENGER, loaded_mass := 0, stop_times := [], events := evs }

/-- Fixture driving event (unassigned vehicle, ElectricBus vehicle type). -/
def fxEv (s e : ℚ) : Event :=
  { event_type := EventType.DRIVING, vehicle := none, vehicle_type := vtEB,
    time_start := 0, time_end := 1, soc_start := s, soc_end := e }

/-- Fixture rotation of the ElectricBus vehicle type. -/
def fxRot (rid : Nat) (ts : List Trip) : Rotation :=
  { id := rid, vehicle_type := vtEB, trips := ts, vehicle := none }

/-- Scenario refuting claim C1: the single rotation's only trip departs
from (and arrives at) stOther, not the terminal, so the prepended deadhead
trip cannot join onto it. -/
def exC1 : Scenario :=
  { stations := [stTerm, stOther], routes := [], vehicle_types := [],
    rotations := [fxRot 0 [fxTrip 1 1 1 5000 100 160 []]] }

/-- Scenario for the corrected claim C1: the rotation starts and ends at
the terminal station. -/
def exC1ok : Scenario :=
  { stations := [stTerm, stOther], routes := [], vehicle_types := [],
    rotations := [fxRot 0 [fxTrip 1 0 1 5000 100 160 [], fxTrip 2 1 0 5000 170 230 []]] }

/-- Output of the inserter on exC1ok. -/
def exC1out : Scenario := (add_empty_trips exC1ok).toOption.getD exC1ok

/-- Scenario refuting claim C2: a connected three-trip rotation whose
middle trip carries an anomalous driving event.  The first pruner run
deletes only that trip, breaking the chain, so the second run deletes the
whole rotation. -/
def exC2 : Scenario :=
  { stations := [], routes := [], vehicle_types := [vtEB],
    rotations := [fxRot 0
      [fxTrip 1 0 1 2000 0 1 [],
       fxTrip 2 1 2 2000 1 2 [fxEv (2/5) (1/2)],
       fxTrip 3 2 3 2000 2 3 []]] }

/-- Scenario for the corrected claim C2: connected and anomaly-free, so
the pruner leaves it unchanged and a second run is the identity. -/
def exC2w : Scenario :=
  { stations := [], routes := [], vehicle_types := [vtEB],
    rotations := [fxRot 0 [fxTrip 1 0 1 2000 0 1 [], fxTrip 2 1 2 2000 1 2 []]] }

/-- Scenario for claim C3: one rotation of two 3 km boundary deadheads
around one interior trip whose driving event consumes half the battery.
The fleet average then charges each boundary trip half a battery as well,
driving the SOC to minus one half by the end of the rotation. -/
def exC3 : Scenario :=
  { stations := [], routes := [], vehicle_types := [vtEB],
    rotations := [fxRot 0
      [fxTrip 1 9 0 3000 0 1 [],
       fxTrip 2 0 0 3000 1 2 [fxEv 1 (1/2)],
       fxTrip 3 0 9 3000 2 3 []]] }

/-- Output of the SOC propagator on exC3. -/
def exC3out : Scenario := (fix_driving_events exC3).toOption.getD exC3

/-- Scenario for claim C4: rotation 0 is connected, rotation 1 has a
broken link between its two trips. -/
def exC4 : Scenario :=
  { stations := [], routes := [], vehicle_types := [vtEB],
    rotations := [
      fxRot 0 [fxTrip 1 0 1 2000 0 1 [], fxTrip 2 1 2 2000 1 2 []],
      fxRot 1 [fxTrip 3 0 1 2000 0 1 [], fxTrip 4 5 6 2000 1 2 []]] }

/-- Output of the connectivity step on exC4. -/
def exC4out : Scenario := (delete_invalid_rotations exC4).toOption.getD exC4

/-- Scenario for claim C6: two driving events spending a fifth of a
300 kWh battery over 10 km and over 15 km. -/
def exC6 : Scenario :=
  { stations := [], routes := [], vehicle_types := [vtEB],
    rotations := [fxRot 0
      [fxTrip 1 0 1 10000 0 1 [fxEv 1 (4/5)],
       fxTrip 2 1 2 15000 1 2 [fxEv (4/5) (3/5)]]] }

/-- Scenario for claim C7: a rotation exists but no driving event does. -/
def exC7 : Scenario :=
  { stations := [], routes := [], vehicle_types := [vtEB],
    rotations := [fxRot 0 [fxTrip 1 0 1 2000 0 1 []]] }

/-- Scenario for claim C8: two rotations, each a boundary trip, an
interior trip with one driving event, and another boundary trip. -/
def exC8 : Scenario :=
  { stations := [], routes := [], vehicle_types := [vtEB],
    rotations := [
      fxRot 0 [fxTrip 1 9 0 3000 0 1 [], fxTrip 2 0 0 3000 1 2 [fxEv 1 (1/2)],
               fxTrip 3 0 9 3000 2 3 []],
      fxRot 1 [fxTrip 4 9 0 3000 0 1 [], fxTrip 5 0 0 3000 1 2 [fxEv 1 (3/5)],
               fxTrip 6 0 9 3000 2 3 []]] }

/-- Output of the SOC propagator on exC8. -/
def exC8out : Scenario := (fix_driving_events exC8).toOption.getD exC8

/-- Single-trip rotation for claim C10. -/
def rotSingle : Rotation := fxRot 0 [fxTrip 1 0 1 2000 0 1 []]

/-- Scenario holding only the single-trip rotation. -/
def exC10 : Scenario :=
  { stations := [], routes := [], vehicle_types := [vtEB], rotations := [rotSingle] }

/-! ## Helper lemmas. -/

/-- Boolean anomaly test agrees with the propositional energy-anomaly
predicate. -/
lemma trip_has_anomaly_iff (t : Trip) :
    trip_has_anomaly t = true ↔ hasNegativeEnergyEvent t := by
  simp [trip_has_anomaly, is_anomalous_event, hasNegativeEnergyEvent,
    List.any_eq_true, Bool.and_eq_true, decide_eq_true_eq]

/-- Mapping each element to its image produces a Forall₂ relation. -/
lemma forall2_of_map {α β : Type} (R : α → β → Prop) (f : α → β) :
    ∀ l : List α, (∀ a ∈ l, R a (f a)) → List.Forall₂ R l (l.map f)
  | [], _ => List.Forall₂.nil
  | a :: l, h =>
    List.Forall₂.cons (h a (List.mem_cons_self a l))
      (forall2_of_map R f l (fun x hx => h x (List.mem_cons_of_mem a hx)))

/-- Pointwise-identity maps leave a list unchanged. -/
lemma map_id_of_mem {α : Type} (f : α → α) :
    ∀ l : List α, (∀ a ∈ l, f a = a) → l.map f = l
  | [], _ => rfl
  | a :: l, h => by
    rw [List.map_cons, h a (List.mem_cons_self a l),
      map_id_of_mem f l (fun x hx => h x (List.mem_cons_of_mem a hx))]

/-! ## Claim theorems. -/

/-- C9: the top-level pipeline's depot-anchor inserter (add_empty_trips
of main.py, the one the main loop calls) raises NotImplementedError for
every scenario, before performing any query or mutation; in the model an
error result carries no scenario, so the state is unchanged. -/
theorem C9_main_inserter_not_implemented (s : Scenario) :
    main_add_empty_trips s = Except.error Err.notImplemented := rfl

/-- C7: with no driving events in the scenario the fleet energy estimator
fails with the insufficient-data error (the specification's
InsufficientDataError, the source's ZeroDivisionError at the average), and
fix_driving_events propagates exactly that failure from its very first
step, before the per-rotation pass assigns any vehicle or creates or
mutates any event. -/
theorem C7_no_driving_events_fails (s : Scenario) (h : drivingPairs s = []) :
    average_energy_consumption s = Except.error Err.insufficientData ∧
    fix_driving_events s = Except.error Err.insufficientData := by
  have hd : sum_of_distance s = 0 := by
    simp [sum_of_distance, h]
  have havg : average_energy_consumption s = Except.error Err.insufficientData := by
    simp [average_energy_consumption, hd]
  exact ⟨havg, by simp [fix_driving_events, havg]⟩

/-- C7 witness: the fixture scenario with a rotation but no events. -/
theorem C7_witness :
    drivingPairs exC7 = [] ∧
    (average_energy_consumption exC7 = Except.error Err.insufficientData ∧
      fix_driving_events exC7 = Except.error Err.insufficientData) :=
  ⟨rfl, C7_no_driving_events_fails exC7 rfl⟩

/-- C6: the fleet energy estimator returns the quotient of the summed
per-event energies (SOC drop times battery capacity) by the summed
per-event distances in km; on the fixture with events spending a fifth of
a 300 kWh battery over 10 km and over 15 km it returns (60+60)/(10+15) =
4.8 kWh/km, and a 3.1 km boundary trip then receives the SOC delta
3.1 * 4.8 / 300 = 0.0496. -/
theorem C6_estimator_formula (s : Scenario) (h : sum_of_distance s ≠ 0) :
    average_energy_consumption s = Except.ok (sum_of_energy s / sum_of_distance s) ∧
    average_energy_consumption exC6 = Except.ok (24/5) ∧
    boundary_delta_soc 3100 (24/5) 300 = 31/625 := by
  refine ⟨by simp [average_energy_consumption, h], rfl, rfl⟩

/-- C6 witness: the estimator fixture has nonzero total distance, and the
formula instance evaluates on it. -/
theorem C6_witness :
    sum_of_distance exC6 ≠ 0 ∧
    (average_energy_consumption exC6 =
        Except.ok (sum_of_energy exC6 / sum_of_distance exC6) ∧
      average_energy_consumption exC6 = Except.ok (24/5) ∧
      boundary_delta_soc 3100 (24/5) 300 = 31/625) :=
  ⟨by decide, C6_estimator_formula exC6 (by decide)⟩

/-- C5: the energy-anomaly step deletes exactly the trips owning an
anomalous driving event and nothing else: it keeps every rotation (same
count, same id, vehicle and vehicle type, related positionally), removes a
trip from a rotation's sequence exactly when that trip has a driving event
with soc_start at or below soc_end, and keeps every other trip unchanged
(its stop times and events travel with the trip value). -/
theorem C5_anomaly_deletes_only_trip (s : Scenario) :
    (delete_negative_energy_trips s).rotations.length = s.rotations.length ∧
    List.Forall₂ (fun r r2 => r2.id = r.id ∧ r2.vehicle = r.vehicle ∧
        r2.vehicle_type = r.vehicle_type ∧
        (∀ t ∈ r.trips, hasNegativeEnergyEvent t → t ∉ r2.trips) ∧
        (∀ t ∈ r.trips, ¬ hasNegativeEnergyEvent t → t ∈ r2.trips) ∧
        (∀ t ∈ r2.trips, t ∈ r.trips ∧ ¬ hasNegativeEnergyEvent t))
      s.rotations (delete_negative_energy_trips s).rotations := by
  constructor
  · simp [delete_negative_energy_trips]
  · apply forall2_of_map
    intro r _
    refine ⟨rfl, rfl, rfl, ?_, ?_, ?_⟩
    · intro t _ hneg hin
      have hp := (List.mem_filter.mp hin).2
      rw [Bool.not_eq_true', ← Bool.not_eq_true] at hp
      exact hp ((trip_has_anomaly_iff t).mpr hneg)
    · intro t hmem hneg
      refine List.mem_filter.mpr ⟨hmem, ?_⟩
      rw [Bool.not_eq_true']
      exact Bool.not_eq_true (trip_has_anomaly t) ▸ fun hc => hneg ((trip_has_anomaly_iff t).mp hc)
    · intro t hin
      have hm := List.mem_filter.mp hin
      refine ⟨hm.1, fun hneg => ?_⟩
      have hp := hm.2
      rw [Bool.not_eq_true'] at hp
      exact absurd ((trip_has_anomaly_iff t).mpr hneg) (by simp [hp])

/-- C2 (corrected): after one pruner run no anomalous trip remains, so a
second run's energy-anomaly step deletes nothing; and whenever the state
left by the first run has no connectivity break (an empty invalid set),
the second run deletes nothing at all — it returns the state unchanged.
The unqualified claim is refuted separately: the first run's trip
deletions can break a chain, which the second run then prunes. -/
theorem C2_pruner_conditionally_idempotent (s s1 : Scenario)
    (h : delete_invalid_rotations_and_trips s = Except.ok s1) :
    (∀ r ∈ s1.rotations, ∀ t ∈ r.trips, ¬ hasNegativeEnergyEvent t) ∧
    (rotations_to_delete s1 = Except.ok [] →
      delete_invalid_rotations_and_trips s1 = Except.ok s1) := by
  have hclean : ∀ r ∈ s1.rotations, ∀ t ∈ r.trips, ¬ hasNegativeEnergyEvent t := by
    unfold delete_invalid_rotations_and_trips at h
    cases hd : delete_invalid_rotations s with
    | error e => rw [hd] at h; exact absurd h (by simp)
    | ok smid =>
      rw [hd] at h
      have hs1 : s1 = delete_negative_energy_trips smid := by
        injection h with h2
        exact h2.symm
      subst hs1
      intro r hr t ht
      simp only [delete_negative_energy_trips, List.mem_map] at hr
      obtain ⟨r0, _, hr0⟩ := hr
      subst hr0
      simp only [List.mem_filter] at ht
      have hp := ht.2
      rw [Bool.not_eq_true'] at hp
      intro hneg
      exact absurd ((trip_has_anomaly_iff t).mpr hneg) (by simp [hp])
  refine ⟨hclean, fun hids => ?_⟩
  have hfix : delete_invalid_rotations s1 = Except.ok s1 := by
    have hfilter : s1.rotations.filter (fun r => !(List.contains [] r.id)) = s1.rotations :=
      List.filter_eq_self.mpr (fun a _ => rfl)
    simp [delete_invalid_rotations, hids, hfilter]
  have hstep2 : delete_negative_energy_trips s1 = s1 := by
    unfold delete_negative_energy_trips
    have hmap : s1.rotations.map
        (fun r => { r with trips := r.trips.filter (fun t => !trip_has_anomaly t) })
        = s1.rotations := by
      apply map_id_of_mem
      intro r hr
      have hfilt : r.trips.filter (fun t => !trip_has_anomaly t) = r.trips := by
        apply List.filter_eq_self.mpr
        intro t ht
        rw [Bool.not_eq_true']
        rw [← Bool.not_eq_true]
        exact fun hc => hclean r hr t ht ((trip_has_anomaly_iff t).mp hc)
      rw [hfilt]
    rw [hmap]
  unfold delete_invalid_rotations_and_trips
  rw [hfix]
  exact congrArg Except.ok hstep2

/-- C2 counterexample: on the fixture exC2 (a connected rotation whose
middle trip has an anomalous event) the first pruner run keeps the
rotation but leaves only trips 1 and 3, and the second run deletes the
whole rotation — so running the pruner twice is not a no-op. -/
theorem C2_counterexample :
    (delete_invalid_rotations_and_trips exC2).map
        (fun s => s.rotations.map (fun r => r.trips.map Trip.id)) =
      Except.ok [[1, 3]] ∧
    ((delete_invalid_rotations_and_trips exC2).bind
        delete_invalid_rotations_and_trips).map
        (fun s => s.rotations.map Rotation.id) =
      Except.ok [] :=
  ⟨rfl, rfl⟩

/-- C2 witness: the clean fixture exC2w is a fixed point of the pruner
and satisfies the corrected claim's conclusions. -/
theorem C2_witness :
    (∀ r ∈ exC2w.rotations, ∀ t ∈ r.trips, ¬ hasNegativeEnergyEvent t) ∧
    (rotations_to_delete exC2w = Except.ok [] →
      delete_invalid_rotations_and_trips exC2w = Except.ok exC2w) :=
  C2_pruner_conditionally_idempotent exC2w exC2w rfl

/-- Shape of a successful per-rotation insertion: the original trips are
nonempty and the result is the inbound deadhead, the original trips, and
the outbound deadhead. -/
lemma addTripsToRotation_ok (d2t t2d : Route) (b : Nat) (r r2 : Rotation)
    (h : addTripsToRotation d2t t2d b r = Except.ok r2) :
    ∃ t0 rest, r.trips = t0 :: rest ∧
      r2 = { r with trips := (mkDepotTrip d2t b
            (t0.departure_time - BREAK_DURATION - DEPOT_TRIP_DURATION)
            (t0.departure_time - BREAK_DURATION))
          :: (r.trips ++ [mkDepotTrip t2d (b + 1)
            (((t0 :: rest).getLastD t0).arrival_time + BREAK_DURATION)
            (((t0 :: rest).getLastD t0).arrival_time + BREAK_DURATION + DEPOT_TRIP_DURATION)]) } := by
  cases htr : r.trips with
  | nil => rw [addTripsToRotation, htr] at h; exact absurd h (by simp)
  | cons t0 rest =>
    refine ⟨t0, rest, rfl, ?_⟩
    rw [addTripsToRotation, htr] at h
    simp only [Except.ok.injEq] at h
    rw [← h]

/-- The insertion loop relates input and output rotation lists
positionally by a successful per-rotation insertion. -/
lemma addTripsToRotations_forall2 (d2t t2d : Route) :
    ∀ (rs : List Rotation) (b : Nat) (rs2 : List Rotation),
      addTripsToRotations d2t t2d b rs = Except.ok rs2 →
      List.Forall₂ (fun r r2 => ∃ bb, addTripsToRotation d2t t2d bb r = Except.ok r2) rs rs2 := by
  intro rs
  induction rs with
  | nil =>
    intro b rs2 h
    rw [addTripsToRotations] at h
    simp only [Except.ok.injEq] at h
    rw [← h]
    exact List.Forall₂.nil
  | cons r rest ih =>
    intro b rs2 h
    rw [addTripsToRotations] at h
    cases h1 : addTripsToRotation d2t t2d b r with
    | error e => rw [h1] at h; exact absurd h (by simp)
    | ok r2 =>
      rw [h1] at h
      cases h2 : addTripsToRotations d2t t2d (b + 2) rest with
      | error e => rw [h2] at h; exact absurd h (by simp)
      | ok rest2 =>
        rw [h2] at h
        simp only [Except.ok.injEq] at h
        rw [← h]
        exact List.Forall₂.cons ⟨b, h1⟩ (ih (b + 2) rest2 h2)

/-- C1 (corrected): after the depot-anchor inserter runs, every rotation
gains an EMPTY zero-mass inbound deadhead whose arrival station is the
fixed terminal station and an EMPTY zero-mass outbound deadhead whose
departure station is that same terminal — so the adjacency invariant
across either inserted boundary holds exactly when the rotation's
original first trip departs from the terminal (respectively its original
last trip arrives there), not for arbitrary rotations. -/
theorem C1_inserter_boundary_stations (s s2 : Scenario) (term : Station)
    (hq : queryOneStation s.stations TERMINAL_NAME = Except.ok term)
    (h : add_empty_trips s = Except.ok s2) :
    List.Forall₂ (insertedRotationRel term) s.rotations s2.rotations := by
  unfold add_empty_trips at h
  split at h
  · exact absurd h (by simp)
  · exact absurd h (by simp)
  · dsimp only at h
    rw [hq] at h
    dsimp only at h
    split at h
    · exact absurd h (by simp)
    · rename_i rots har
      simp only [Except.ok.injEq] at h
      have hrots : s2.rotations = rots := by rw [← h]
      rw [hrots]
      have hf2 := addTripsToRotations_forall2 _ _ _ _ _ har
      refine hf2.imp ?_
      intro r r2 hex
      obtain ⟨bb, hb⟩ := hex
      obtain ⟨t0, rest, htr, hr2⟩ := addTripsToRotation_ok _ _ _ _ _ hb
      refine ⟨_, _, by rw [hr2], rfl, rfl, rfl, rfl, rfl, rfl, ?_, ?_⟩
      · intro t0x _
        exact ⟨fun hx => hx.symm, fun hx => hx.symm⟩
      · intro tlx _
        exact ⟨fun hx => hx.symm, fun hx => hx.symm⟩

/-- C1 counterexample: on exC1, whose only rotation starts and ends at
station 1, the inserter produces trips with station pairs
(2,0), (1,1), (0,2): the prepended deadhead arrives at station 0 (the
terminal) while the original first trip departs from station 1, so the
claimed adjacency fails for a rotation not anchored at the terminal. -/
theorem C1_counterexample :
    (add_empty_trips exC1).map (fun s2 => s2.rotations.map
        (fun r => r.trips.map (fun t => (t.route.departure_station, t.route.arrival_station)))) =
      Except.ok [[(2, 0), (1, 1), (0, 2)]] ∧
    (0 : Nat) ≠ 1 :=
  ⟨rfl, by decide⟩

/-- C1 witness: on exC1ok, whose rotation is anchored at the terminal,
the corrected statement applies. -/
theorem C1_witness :
    queryOneStation exC1ok.stations TERMINAL_NAME = Except.ok stTerm ∧
    add_empty_trips exC1ok = Except.ok exC1out ∧
    List.Forall₂ (insertedRotationRel stTerm) exC1ok.rotations exC1out.rotations :=
  ⟨rfl, rfl, C1_inserter_boundary_stations exC1ok exC1out stTerm rfl rfl⟩

/-- Every driving pair's owning trip lies in some rotation of the
scenario. -/
lemma drivingPairs_mem (s : Scenario) (p : Trip × Event) (hp : p ∈ drivingPairs s) :
    ∃ r ∈ s.rotations, p.1 ∈ r.trips := by
  have hmem := (List.mem_filter.mp hp).1
  simp only [scenarioTripEventPairs, List.mem_flatMap, List.mem_map] at hmem
  obtain ⟨r, hr, t, ht, e, _, hpe⟩ := hmem
  exact ⟨r, hr, by rw [← hpe]; exact ht⟩

/-- A successfully computed fleet average is nonnegative when every
driving event consumed energy from a nonnegative-capacity battery over a
nonnegative distance. -/
lemma average_nonneg (s : Scenario) (avg : ℚ)
    (hdist : ∀ r ∈ s.rotations, ∀ t ∈ r.trips, 0 ≤ t.route.distance)
    (hev : ∀ p ∈ drivingPairs s, p.2.soc_end ≤ p.2.soc_start ∧ 0 ≤ p.2.vehicle_type.battery_capacity)
    (h : average_energy_consumption s = Except.ok avg) : 0 ≤ avg := by
  unfold average_energy_consumption at h
  split at h
  · exact absurd h (by simp)
  · simp only [Except.ok.injEq] at h
    rw [← h]
    apply div_nonneg
    · apply List.sum_nonneg
      intro x hx
      simp only [List.mem_map] at hx
      obtain ⟨p, hp, hpx⟩ := hx
      rw [← hpx]
      exact mul_nonneg (sub_nonneg.mpr (hev p hp).1) (hev p hp).2
    · apply List.sum_nonneg
      intro x hx
      simp only [List.mem_map] at hx
      obtain ⟨p, hp, hpx⟩ := hx
      rw [← hpx]
      obtain ⟨r, hr, ht⟩ := drivingPairs_mem s p hp
      exact div_nonneg (hdist r hr p.1 ht) (by norm_num)

/-- A bounded descent below one ceiling is one below any higher ceiling. -/
lemma socBoundedDescent_mono : ∀ (l : List (ℚ × ℚ)) (c c2 : ℚ), c ≤ c2 →
    socBoundedDescent c l → socBoundedDescent c2 l
  | [], _, _, _, _ => trivial
  | _ :: _, _, _, hc, h => ⟨le_trans h.1 hc, h.2.1, h.2.2⟩

/-- Every SOC bound of a descent stays at or below the ceiling. -/
lemma socBoundedDescent_all_le : ∀ (l : List (ℚ × ℚ)) (c : ℚ),
    socBoundedDescent c l → ∀ p ∈ l, p.1 ≤ c ∧ p.2 ≤ c
  | [], _, _, _, hp => absurd hp (by simp)
  | q :: rest, c, h, p, hp => by
    rcases List.mem_cons.mp hp with hq | hrest
    · rw [hq]
      exact ⟨h.1, le_trans h.2.1 h.1⟩
    · have := socBoundedDescent_all_le rest q.2 h.2.2 p hrest
      have hq2 : q.2 ≤ c := le_trans h.2.1 h.1
      exact ⟨le_trans this.1 hq2, le_trans this.2 hq2⟩

/-- The soc_end entries of a bounded descent are non-increasing. -/
lemma socBoundedDescent_chain : ∀ (l : List (ℚ × ℚ)) (c : ℚ),
    socBoundedDescent c l → List.Chain' (fun a b => b ≤ a) (l.map Prod.snd)
  | [], _, _ => List.chain'_nil
  | q :: rest, c, h => by
    rw [List.map_cons]
    refine List.chain'_cons'.mpr ⟨?_, socBoundedDescent_chain rest q.2 h.2.2⟩
    intro b hb
    cases rest with
    | nil => simp at hb
    | cons q2 rest2 =>
      simp only [List.map_cons, List.head?_cons, Option.mem_def, Option.some.injEq] at hb
      rw [← hb]
      exact le_trans h.2.2.2.1 h.2.2.1

/-- Reduction of drivingSocPairs over a trip holding one driving event. -/
lemma drivingSocPairs_cons_driving (t : Trip) (e : Event) (ts : List Trip)
    (ht : t.events = [e]) (he : e.event_type = EventType.DRIVING) :
    drivingSocPairs (t :: ts) = (e.soc_start, e.soc_end) :: drivingSocPairs ts := by
  simp [drivingSocPairs, ht, he]

/-- Reduction of drivingSocPairs over a trip holding one non-driving
event. -/
lemma drivingSocPairs_cons_other (t : Trip) (e : Event) (ts : List Trip)
    (ht : t.events = [e]) (he : e.event_type = EventType.OTHER) :
    drivingSocPairs (t :: ts) = drivingSocPairs ts := by
  simp [drivingSocPairs, ht, he]

/-- Core SOC-propagation invariant: a successful fixTrips fold starting
at a given SOC produces trips whose driving-event SOC bounds form a
bounded descent from that SOC, provided the fleet average, the battery
capacity and the trip distances are nonnegative (the fold itself rejects
a negative preserved delta). -/
lemma fixTrips_descent (avg : ℚ) (v : Vehicle) (cap : ℚ) (n : Nat)
    (havg : 0 ≤ avg) (hcap : 0 ≤ cap) :
    ∀ (ts : List Trip) (i : Nat) (soc : ℚ) (ts2 : List Trip),
      (∀ t ∈ ts, 0 ≤ t.route.distance) →
      fixTrips avg v cap n i soc ts = Except.ok ts2 →
      socBoundedDescent soc (drivingSocPairs ts2) := by
  intro ts
  induction ts with
  | nil =>
    intro i soc ts2 _ h
    unfold fixTrips at h
    simp only [Except.ok.injEq] at h
    rw [← h]
    trivial
  | cons t ts ih =>
    intro i soc ts2 hdist h
    have hdt : 0 ≤ t.route.distance := hdist t (List.mem_cons_self t ts)
    have hdrest : ∀ t2 ∈ ts, 0 ≤ t2.route.distance :=
      fun t2 ht2 => hdist t2 (List.mem_cons_of_mem t ht2)
    unfold fixTrips at h
    split at h
    · -- boundary trip
      split at h
      · -- events = []
        split at h
        · exact absurd h (by simp)
        · dsimp only at h
          split at h
          · exact absurd h (by simp)
          · rename_i hcap0 ts2x hrec
            simp only [Except.ok.injEq] at h
            rw [← h]
            have hdsoc : 0 ≤ boundary_delta_soc t.route.distance avg cap := by
              unfold boundary_delta_soc
              exact div_nonneg (mul_nonneg (div_nonneg hdt (by norm_num)) havg) hcap
            rw [drivingSocPairs_cons_driving _ _ _ rfl rfl]
            exact ⟨le_refl soc, sub_le_self soc hdsoc, ih (i + 1) _ ts2x hdrest hrec⟩
      · exact absurd h (by simp)
    · -- interior trip
      split at h
      · -- events = [e0]
        rename_i e0 hte
        dsimp only at h
        split at h
        · exact absurd h (by simp)
        · rename_i hneg
          split at h
          · exact absurd h (by simp)
          · rename_i ts2x hrec
            simp only [Except.ok.injEq] at h
            rw [← h]
            have hdsoc : 0 ≤ e0.soc_start - e0.soc_end := le_of_not_lt hneg
            have htail := ih (i + 1) _ ts2x hdrest hrec
            cases he0 : e0.event_type with
            | DRIVING =>
              rw [drivingSocPairs_cons_driving _ _ _ rfl rfl]
              exact ⟨le_refl soc, sub_le_self soc hdsoc, htail⟩
            | OTHER =>
              rw [drivingSocPairs_cons_other _ _ _ rfl rfl]
              exact socBoundedDescent_mono _ _ _ (sub_le_self soc hdsoc) htail
      · exact absurd h (by simp)

/-- A Forall₂ relation lets every right-hand member be traced to a
related left-hand member. -/
lemma forall2_mem_right {α β : Type} {R : α → β → Prop} :
    ∀ {l : List α} {l2 : List β}, List.Forall₂ R l l2 → ∀ b ∈ l2, ∃ a ∈ l, R a b := by
  intro l l2 hf
  induction hf with
  | nil => intro b hb; exact absurd hb (by simp)
  | cons hR _ ih =>
    intro b hb
    rcases List.mem_cons.mp hb with hb1 | hb2
    · exact ⟨_, List.mem_cons_self _ _, hb1 ▸ hR⟩
    · obtain ⟨a, ha, har⟩ := ih b hb2
      exact ⟨a, List.mem_cons_of_mem _ ha, har⟩

/-- The rotation loop of fix_driving_events relates input and output
rotation lists positionally. -/
lemma fixRotations_forall2 (avg : ℚ) (vts : List VehicleType) :
    ∀ (rs rs2 : List Rotation), fixRotations avg vts rs = Except.ok rs2 →
      List.Forall₂ (fun r r2 => fixRotation avg vts r = Except.ok r2) rs rs2 := by
  intro rs
  induction rs with
  | nil =>
    intro rs2 h
    unfold fixRotations at h
    simp only [Except.ok.injEq] at h
    rw [← h]
    exact List.Forall₂.nil
  | cons r rest ih =>
    intro rs2 h
    unfold fixRotations at h
    cases h1 : fixRotation avg vts r with
    | error e => rw [h1] at h; exact absurd h (by simp)
    | ok r2 =>
      rw [h1] at h
      cases h2 : fixRotations avg vts rest with
      | error e => rw [h2] at h; exact absurd h (by simp)
      | ok rest2 =>
        rw [h2] at h
        simp only [Except.ok.injEq] at h
        rw [← h]
        exact List.Forall₂.cons h1 (ih rest2 h2)

/-- Shape of a successful per-rotation pass of fix_driving_events: the
ElectricBus lookup succeeded, the SOC fold succeeded from a full battery,
and the rotation keeps its id and vehicle type while gaining the fresh
vehicle and the folded trips. -/
lemma fixRotation_ok (avg : ℚ) (vts : List VehicleType) (r r2 : Rotation)
    (h : fixRotation avg vts r = Except.ok r2) :
    ∃ eb, queryElectricBus vts = Except.ok eb ∧
      ∃ ts2, fixTrips avg (mkAutoVehicle eb r.id) r.vehicle_type.battery_capacity
          r.trips.length 0 1 r.trips = Except.ok ts2 ∧
        r2 = { r with vehicle := some (mkAutoVehicle eb r.id), trips := ts2 } := by
  unfold fixRotation at h
  cases hq : queryElectricBus vts with
  | error e => rw [hq] at h; exact absurd h (by simp)
  | ok eb =>
    rw [hq] at h
    dsimp only at h
    refine ⟨eb, rfl, ?_⟩
    cases ht : fixTrips avg (mkAutoVehicle eb r.id) r.vehicle_type.battery_capacity
        r.trips.length 0 1 r.trips with
    | error e => rw [ht] at h; exact absurd h (by simp)
    | ok ts2 =>
      rw [ht] at h
      simp only [Except.ok.injEq] at h
      exact ⟨ts2, rfl, h.symm⟩

/-- C3 (corrected): after a successful run of fix_driving_events on a
scenario whose driving events all consumed energy, whose battery
capacities and trip distances are nonnegative, every rotation's sequence
of driving-event soc_end values (in trip order) is non-increasing and
every soc_start and soc_end is at most 1.  The claimed lower bound 0 is
refuted separately: nothing clamps the propagated SOC at zero, so a long
enough rotation drives it negative. -/
theorem C3_soc_monotone_and_capped (s s2 : Scenario)
    (hdist : ∀ r ∈ s.rotations, ∀ t ∈ r.trips, 0 ≤ t.route.distance)
    (hcap : ∀ r ∈ s.rotations, 0 ≤ r.vehicle_type.battery_capacity)
    (hev : ∀ p ∈ drivingPairs s, p.2.soc_end ≤ p.2.soc_start ∧ 0 ≤ p.2.vehicle_type.battery_capacity)
    (h : fix_driving_events s = Except.ok s2) :
    ∀ r2 ∈ s2.rotations,
      List.Chain' (fun a b => b ≤ a) ((drivingSocPairs r2.trips).map Prod.snd) ∧
      ∀ p ∈ drivingSocPairs r2.trips, p.1 ≤ 1 ∧ p.2 ≤ 1 := by
  unfold fix_driving_events at h
  cases havg : average_energy_consumption s with
  | error e => rw [havg] at h; exact absurd h (by simp)
  | ok avg =>
    rw [havg] at h
    dsimp only at h
    cases hrs : fixRotations avg s.vehicle_types s.rotations with
    | error e => rw [hrs] at h; exact absurd h (by simp)
    | ok rots =>
      rw [hrs] at h
      simp only [Except.ok.injEq] at h
      intro r2 hr2
      have hr2' : r2 ∈ rots := by rw [← h] at hr2; exact hr2
      obtain ⟨r, hr, hfr⟩ := forall2_mem_right (fixRotations_forall2 avg s.vehicle_types s.rotations rots hrs) r2 hr2'
      obtain ⟨eb, _, ts2, hft, hr2eq⟩ := fixRotation_ok avg s.vehicle_types r r2 hfr
      have havg0 : 0 ≤ avg := average_nonneg s avg hdist hev havg
      have hdesc : socBoundedDescent 1 (drivingSocPairs ts2) :=
        fixTrips_descent avg (mkAutoVehicle eb r.id) r.vehicle_type.battery_capacity
          r.trips.length havg0 (hcap r hr) r.trips 0 1 ts2 (hdist r hr) hft
      have htrips : r2.trips = ts2 := by rw [hr2eq]
      rw [htrips]
      exact ⟨socBoundedDescent_chain _ _ hdesc,
        fun p hp => socBoundedDescent_all_le _ _ hdesc p hp⟩

/-- C3 counterexample: on exC3 the SOC propagator succeeds and produces
driving-event soc_end values 1/2, 0, -1/2 along the single rotation — the
last one is negative, so SOC does not stay within [0,1]. -/
theorem C3_counterexample :
    (fix_driving_events exC3).map
        (fun s2 => s2.rotations.map (fun r => (drivingSocPairs r.trips).map Prod.snd)) =
      Except.ok [[1/2, 0, -(1/2)]] ∧
    (-(1/2) : ℚ) < 0 :=
  ⟨rfl, by decide⟩

/-- C3 witness: the corrected statement applied to the exC3 fixture. -/
theorem C3_witness :
    fix_driving_events exC3 = Except.ok exC3out ∧
    (∀ r2 ∈ exC3out.rotations,
      List.Chain' (fun a b => b ≤ a) ((drivingSocPairs r2.trips).map Prod.snd) ∧
      ∀ p ∈ drivingSocPairs r2.trips, p.1 ≤ 1 ∧ p.2 ≤ 1) :=
  ⟨rfl, C3_soc_monotone_and_capped exC3 exC3out (by decide) (by decide) (by decide) rfl⟩

/-- A Forall₂ relation that determines equal projections makes the
projected lists equal. -/
lemma forall2_map_eq {α β γ : Type} {R : α → β → Prop} {f : α → γ} {g : β → γ}
    (hfg : ∀ a b, R a b → g b = f a) :
    ∀ {l : List α} {l2 : List β}, List.Forall₂ R l l2 → l2.map g = l.map f := by
  intro l l2 hf
  induction hf with
  | nil => rfl
  | cons hR _ ih => simp only [List.map_cons, ih, hfg _ _ hR]

/-- C8: after a successful run of fix_driving_events, every rotation is
assigned exactly one vehicle — the freshly created one of the scenario's
ElectricBus reference vehicle type, whose identity is derived from the
rotation's own id — and, when rotation ids are distinct (they are
database primary keys), no vehicle is shared by two rotations. -/
theorem C8_vehicle_assignment (s s2 : Scenario)
    (hnd : (s.rotations.map Rotation.id).Nodup)
    (h : fix_driving_events s = Except.ok s2) :
    (∀ r2 ∈ s2.rotations, ∃ eb, queryElectricBus s.vehicle_types = Except.ok eb ∧
        r2.vehicle = some (mkAutoVehicle eb r2.id)) ∧
    List.Pairwise (fun r1 r2 => r1.vehicle ≠ r2.vehicle) s2.rotations := by
  unfold fix_driving_events at h
  cases havg : average_energy_consumption s with
  | error e => rw [havg] at h; exact absurd h (by simp)
  | ok avg =>
    rw [havg] at h
    dsimp only at h
    cases hrs : fixRotations avg s.vehicle_types s.rotations with
    | error e => rw [hrs] at h; exact absurd h (by simp)
    | ok rots =>
      rw [hrs] at h
      simp only [Except.ok.injEq] at h
      have hrots : s2.rotations = rots := by rw [← h]
      have hf2 := fixRotations_forall2 avg s.vehicle_types s.rotations rots hrs
      have hveh : ∀ r2 ∈ rots, ∃ eb, queryElectricBus s.vehicle_types = Except.ok eb ∧
          r2.vehicle = some (mkAutoVehicle eb r2.id) := by
        intro r2 hr2
        obtain ⟨r, _, hfr⟩ := forall2_mem_right hf2 r2 hr2
        obtain ⟨eb, heb, ts2, _, hr2eq⟩ := fixRotation_ok avg s.vehicle_types r r2 hfr
        refine ⟨eb, heb, ?_⟩
        rw [hr2eq]
      rw [hrots]
      refine ⟨hveh, ?_⟩
      have hideq : rots.map Rotation.id = s.rotations.map Rotation.id := by
        refine forall2_map_eq ?_ hf2
        intro r r2 hfr
        obtain ⟨eb, _, ts2, _, hr2eq⟩ := fixRotation_ok avg s.vehicle_types r r2 hfr
        rw [hr2eq]
      have hnd2 : (rots.map Rotation.id).Nodup := by rw [hideq]; exact hnd
      have hpw : rots.Pairwise (fun a b => a.id ≠ b.id) := List.pairwise_map.mp hnd2
      refine hpw.imp_of_mem ?_
      intro a b ha hb hne hveq
      obtain ⟨eb1, heb1, hva⟩ := hveh a ha
      obtain ⟨eb2, heb2, hvb⟩ := hveh b hb
      have hebeq : eb1 = eb2 := by
        have := heb1.symm.trans heb2
        exact Except.ok.inj this
      rw [hva, hvb, hebeq] at hveq
      have := Option.some.inj hveq
      exact hne (congrArg Vehicle.id this)

/-- C8 witness: the two-rotation fixture exC8 carries distinct rotation
ids and the propagator succeeds on it. -/
theorem C8_witness :
    (exC8.rotations.map Rotation.id).Nodup ∧
    fix_driving_events exC8 = Except.ok exC8out ∧
    ((∀ r2 ∈ exC8out.rotations, ∃ eb, queryElectricBus exC8.vehicle_types = Except.ok eb ∧
        r2.vehicle = some (mkAutoVehicle eb r2.id)) ∧
      List.Pairwise (fun r1 r2 => r1.vehicle ≠ r2.vehicle) exC8out.rotations) :=
  ⟨by decide, rfl, C8_vehicle_assignment exC8 exC8out (by decide) rfl⟩

/-- Dropping a prefix preserves the last element of a nonempty
remainder. -/
lemma getLastQ_drop : ∀ (l : List Trip) (k : Nat), l.drop k ≠ [] →
    (l.drop k).getLast? = l.getLast? := by
  intro l
  induction l with
  | nil => intro k h; exact absurd (by simp : List.drop k ([] : List Trip) = []) h
  | cons a l ih =>
    intro k h
    cases k with
    | zero => rfl
    | succ k =>
      rw [List.drop_succ_cons] at h ⊢
      have hl : l ≠ [] := by
        intro he
        rw [he] at h
        exact h (by simp)
      rw [ih k h]
      cases l with
      | nil => exact absurd rfl hl
      | cons b l2 => exact (List.getLast?_cons_cons).symm

/-- With duplicate-free trip ids, a trip strictly before the last
position cannot carry the last trip's id. -/
lemma nodup_id_ne_last (all : List Trip) (t last : Trip) (k : Nat)
    (hnd : (all.map Trip.id).Nodup) (hlast : all.getLast? = some last)
    (hk : all[k]? = some t) (hklt : k + 1 < all.length) : t.id ≠ last.id := by
  intro heq
  have hk' : k < all.length := Nat.lt_of_succ_lt hklt
  have hlen1 : all.length - 1 < all.length := by omega
  rw [List.getLast?_eq_getElem? all, List.getElem?_eq_getElem hlen1] at hlast
  have hlastv : all[all.length - 1] = last := by
    simpa using hlast
  rw [List.getElem?_eq_getElem hk'] at hk
  have htv : all[k] = t := by simpa using hk
  have hmk : k < (all.map Trip.id).length := by simpa using hk'
  have hml : all.length - 1 < (all.map Trip.id).length := by simpa using hlen1
  have hmapk : (all.map Trip.id)[k] = t.id := by
    rw [List.getElem_map, htv]
  have hmapl : (all.map Trip.id)[all.length - 1] = last.id := by
    rw [List.getElem_map, hlastv]
  have : k = all.length - 1 := by
    have heq2 : (all.map Trip.id)[k] = (all.map Trip.id)[all.length - 1] := by
      rw [hmapk, hmapl, heq]
    exact hnd.getElem_inj_iff.mp heq2
  omega

/-- Unfolding equation of the inner connectivity scan on a cons cell. -/
lemma flagCountAux_cons (all : List Trip) (last t : Trip) (i : Nat) (rest : List (Nat × Trip)) :
    flagCountAux all last ((i, t) :: rest) =
      if t.id = last.id then flagCountAux all last rest
      else
        match all[i + 1]? with
        | none => Except.error Err.indexError
        | some nxt =>
          match flagCountAux all last rest with
          | Except.error e => Except.error e
          | Except.ok m =>
            Except.ok ((if t.route.arrival_station = nxt.route.departure_station then 0 else 1) + m) := rfl

/-- Behaviour of the inner connectivity scan on any aligned suffix of the
trip list: it never dereferences out of range, and with duplicate-free
trip ids its flag count is the structural adjacent-mismatch count of the
suffix. -/
lemma flagCountAux_spec (all : List Trip) (last : Trip) (hlast : all.getLast? = some last) :
    ∀ (suffix : List Trip) (k : Nat), all.drop k = suffix →
      ∃ m, flagCountAux all last (List.enumFrom k suffix) = Except.ok m ∧
        ((all.map Trip.id).Nodup → m = adjMismatchCount suffix) := by
  intro suffix
  induction suffix with
  | nil =>
    intro k _
    exact ⟨0, rfl, fun _ => rfl⟩
  | cons t rest ih =>
    intro k hdrop
    cases rest with
    | nil =>
      have hlt : t = last := by
        have h1 := getLastQ_drop all k (by rw [hdrop]; simp)
        rw [hdrop, List.getLast?_singleton] at h1
        exact Option.some.inj (h1.trans hlast)
      have : flagCountAux all last (List.enumFrom k [t]) =
          flagCountAux all last (List.enumFrom (k + 1) []) := by
        simp [flagCountAux, hlt]
      exact ⟨0, by rw [this]; rfl, fun _ => rfl⟩
    | cons r rest2 =>
      have hk : all[k]? = some t := by
        have h0 : (all.drop k)[0]? = all[k + 0]? := List.getElem?_drop all k 0
        rw [hdrop] at h0
        simpa using h0.symm
      have hnext : all[k + 1]? = some r := by
        have h1 : (all.drop k)[1]? = all[k + 1]? := List.getElem?_drop all k 1
        rw [hdrop] at h1
        simpa using h1.symm
      have hdrop2 : all.drop (k + 1) = r :: rest2 := by
        have hdd : List.drop 1 (List.drop k all) = List.drop (k + 1) all :=
          List.drop_drop 1 k all
        rw [hdrop] at hdd
        simpa using hdd.symm
      obtain ⟨m2, hm2, himp2⟩ := ih (k + 1) hdrop2
      have hklt : k + 1 < all.length := by
        have := List.length_drop k all
        rw [hdrop] at this
        simp at this
        omega
      by_cases hid : t.id = last.id
      · refine ⟨m2, ?_, ?_⟩
        · show flagCountAux all last (List.enumFrom k (t :: r :: rest2)) = Except.ok m2
          rw [List.enumFrom_cons, flagCountAux_cons, if_pos hid]
          exact hm2
        · intro hnd
          exact absurd hid (nodup_id_ne_last all t last k hnd hlast hk hklt)
      · refine ⟨(if t.route.arrival_station = r.route.departure_station then 0 else 1) + m2, ?_, ?_⟩
        · show flagCountAux all last (List.enumFrom k (t :: r :: rest2)) =
            Except.ok ((if t.route.arrival_station = r.route.departure_station then 0 else 1) + m2)
          rw [List.enumFrom_cons, flagCountAux_cons, if_neg hid, hnext]
          dsimp only
          rw [hm2]
        · intro hnd
          rw [himp2 hnd]
          rfl

/-- The rotation-level connectivity scan never fails, and with
duplicate-free trip ids its flag count is the structural mismatch
count. -/
lemma flagCountE_spec (ts : List Trip) :
    ∃ m, flagCountE ts = Except.ok m ∧
      ((ts.map Trip.id).Nodup → m = adjMismatchCount ts) := by
  cases hts : ts with
  | nil => exact ⟨0, rfl, fun _ => rfl⟩
  | cons t rest =>
    cases hlast : (t :: rest).getLast? with
    | none => simp at hlast
    | some last =>
      obtain ⟨m, hm, himp⟩ := flagCountAux_spec (t :: rest) last hlast (t :: rest) 0 rfl
      refine ⟨m, ?_, himp⟩
      unfold flagCountE
      rw [hlast]
      exact hm

/-- The rotation scan never fails, and its flag list holds exactly the
ids of rotations whose scan counted at least one flag. -/
lemma scanRotations_spec : ∀ rs : List Rotation,
    ∃ ids, scanRotations rs = Except.ok ids ∧
      ∀ x, x ∈ ids ↔ ∃ r ∈ rs, r.id = x ∧
        ∃ m, flagCountE r.trips = Except.ok m ∧ m ≠ 0 := by
  intro rs
  induction rs with
  | nil => exact ⟨[], rfl, by simp⟩
  | cons r rest ih =>
    obtain ⟨m, hm, _⟩ := flagCountE_spec r.trips
    obtain ⟨ids, hids, hmem⟩ := ih
    refine ⟨List.replicate m r.id ++ ids, ?_, ?_⟩
    · unfold scanRotations
      rw [hm, hids]
    · intro x
      rw [List.mem_append, List.mem_replicate, hmem x]
      constructor
      · rintro (⟨hm0, hx⟩ | ⟨r2, hr2, hx, m2, hm2, hm20⟩)
        · exact ⟨r, List.mem_cons_self r rest, hx.symm, m, hm, hm0⟩
        · exact ⟨r2, List.mem_cons_of_mem r hr2, hx, m2, hm2, hm20⟩
      · rintro ⟨r2, hr2, hx, m2, hm2, hm20⟩
        rcases List.mem_cons.mp hr2 with hr2r | hr2rest
        · left
          rw [hr2r] at hm2 hx
          have : m2 = m := Except.ok.inj (hm2.symm.trans hm)
          exact ⟨by rw [← this]; exact hm20, hx.symm⟩
        · right
          exact ⟨r2, hr2rest, hx, m2, hm2, hm20⟩

/-- Duplicate-free mapped ids make the id projection injective on list
members. -/
lemma rotation_id_inj (rs : List Rotation) (hnd : (rs.map Rotation.id).Nodup) :
    ∀ r ∈ rs, ∀ r2 ∈ rs, r.id = r2.id → r = r2 :=
  fun _ hr _ hr2 h => List.inj_on_of_nodup_map hnd hr hr2 h

/-- The structural mismatch count vanishes exactly when the
specification's connectivity invariant holds. -/
lemma adjMismatchCount_eq_zero_iff : ∀ ts : List Trip,
    adjMismatchCount ts = 0 ↔ noMismatch ts := by
  intro ts
  induction ts with
  | nil =>
    simp only [adjMismatchCount, noMismatch, true_iff]
    intro i a b ha
    simp at ha
  | cons t rest ih =>
    cases rest with
    | nil =>
      simp only [adjMismatchCount, noMismatch, true_iff]
      intro i a b _ hb
      cases i with
      | zero => simp at hb
      | succ j => simp at hb
    | cons r rest2 =>
      constructor
      · intro h0
        have hsum := Nat.add_eq_zero.mp h0
        have hpair : t.route.arrival_station = r.route.departure_station := by
          by_contra hne
          rw [if_neg hne] at hsum
          exact absurd hsum.1 (by simp)
        have htail : noMismatch (r :: rest2) := (ih).mp hsum.2
        intro i a b ha hb
        cases i with
        | zero =>
          rw [List.getElem?_cons_zero] at ha
          rw [List.getElem?_cons_succ, List.getElem?_cons_zero] at hb
          have ha2 := Option.some.inj ha
          have hb2 := Option.some.inj hb
          rw [← ha2, ← hb2]
          exact hpair
        | succ j =>
          rw [List.getElem?_cons_succ] at ha hb
          exact htail j a b ha hb
      · intro hnm
        have hpair : t.route.arrival_station = r.route.departure_station :=
          hnm 0 t r (by simp) (by simp)
        have htail : noMismatch (r :: rest2) := by
          intro i a b ha hb
          exact hnm (i + 1) a b (by rw [List.getElem?_cons_succ]; exact ha)
            (by rw [List.getElem?_cons_succ]; exact hb)
        show (if t.route.arrival_station = r.route.departure_station then 0 else 1)
            + adjMismatchCount (r :: rest2) = 0
        rw [if_pos hpair, ih.mpr htail]

/-- Dependency order of the cascading delete issued for one invalid
rotation: the rotation's own delete comes last, each trip's delete block
appears contiguously with its stop-time and event deletes before the
trip's delete, and the rotation delete follows every trip block. -/
lemma rotationDeleteOps_order (r : Rotation) :
    (rotationDeleteOps r).getLast? = some (DeleteOp.rotation_op r.id) ∧
    ∀ t ∈ r.trips, (tripDeleteOps t).getLast? = some (DeleteOp.trip_op t.id) ∧
      ∃ pre post, rotationDeleteOps r = pre ++ tripDeleteOps t ++ post ∧
        DeleteOp.rotation_op r.id ∈ post := by
  refine ⟨List.getLast?_concat _, ?_⟩
  intro t ht
  constructor
  · have : tripDeleteOps t =
        (t.stop_times.map (DeleteOp.stop_time_op t.id)
          ++ t.events.map (fun _ => DeleteOp.event_op t.id)) ++ [DeleteOp.trip_op t.id] := by
      rw [tripDeleteOps, List.append_assoc]
    rw [this]
    exact List.getLast?_concat _
  · obtain ⟨l1, l2, hdec⟩ := List.append_of_mem ht
    refine ⟨l1.flatMap tripDeleteOps, l2.flatMap tripDeleteOps ++ [DeleteOp.rotation_op r.id], ?_, ?_⟩
    · rw [rotationDeleteOps, hdec, List.flatMap_append, List.flatMap_cons]
      simp [List.append_assoc]
    · simp

/-- C4: the connectivity step deletes exactly the rotations holding an
adjacent station mismatch, each exactly once.  The invalid set is
deduplicated (its id list has no duplicates), the surviving rotations are
precisely those with no mismatching adjacent pair (kept with all their
trips, stop-times and events unchanged, since the whole rotation value
survives), the structural mismatch count agrees with the specification's
adjacency invariant, and each deleted rotation's cascade respects the
dependency order: per trip its stop-times and events come before the trip
delete, and the rotation delete comes last. -/
theorem C4_connectivity_prunes_whole_rotations (s s2 : Scenario)
    (hR : (s.rotations.map Rotation.id).Nodup)
    (hT : ∀ r ∈ s.rotations, (r.trips.map Trip.id).Nodup)
    (h : delete_invalid_rotations s = Except.ok s2) :
    (∃ ids, rotations_to_delete s = Except.ok ids ∧ ids.Nodup) ∧
    s2.rotations = s.rotations.filter (fun r => adjMismatchCount r.trips == 0) ∧
    (∀ r ∈ s.rotations, (adjMismatchCount r.trips = 0 ↔ noMismatch r.trips)) ∧
    (∀ r ∈ s.rotations, adjMismatchCount r.trips ≠ 0 →
      ((rotationDeleteOps r).getLast? = some (DeleteOp.rotation_op r.id) ∧
        ∀ t ∈ r.trips, (tripDeleteOps t).getLast? = some (DeleteOp.trip_op t.id) ∧
          ∃ pre post, rotationDeleteOps r = pre ++ tripDeleteOps t ++ post ∧
            DeleteOp.rotation_op r.id ∈ post)) := by
  obtain ⟨ids0, hscan, hmem⟩ := scanRotations_spec s.rotations
  have hrtd : rotations_to_delete s = Except.ok ids0.dedup := by
    unfold rotations_to_delete
    rw [hscan]
  unfold delete_invalid_rotations at h
  rw [hrtd] at h
  simp only [Except.ok.injEq] at h
  have hklist : ∀ r ∈ s.rotations, (r.id ∈ ids0 ↔ adjMismatchCount r.trips ≠ 0) := by
    intro r hr
    rw [hmem r.id]
    constructor
    · rintro ⟨r2, hr2, hid, m, hm, hm0⟩
      have hrr : r2 = r := rotation_id_inj s.rotations hR r2 hr2 r hr hid
      subst hrr
      obtain ⟨m2, hm2, himp⟩ := flagCountE_spec r2.trips
      have hmm : m = m2 := Except.ok.inj (hm.symm.trans hm2)
      rw [← himp (hT r2 hr2), ← hmm]
      exact hm0
    · intro hadj
      obtain ⟨m2, hm2, himp⟩ := flagCountE_spec r.trips
      refine ⟨r, hr, rfl, m2, hm2, ?_⟩
      rw [himp (hT r hr)]
      exact hadj
  refine ⟨⟨ids0.dedup, hrtd, List.nodup_dedup ids0⟩, ?_, ?_, ?_⟩
  · rw [← h]
    apply List.filter_congr
    intro r hr
    have hc : ids0.dedup.contains r.id = decide (r.id ∈ ids0.dedup) :=
      List.elem_eq_mem r.id ids0.dedup
    rw [hc]
    by_cases hadj : adjMismatchCount r.trips = 0
    · have hnot : r.id ∉ ids0 := fun hin => absurd hadj (by
        have := (hklist r hr).mp hin
        exact this)
      simp [List.mem_dedup, hnot, hadj]
    · have hin : r.id ∈ ids0 := (hklist r hr).mpr hadj
      simp [List.mem_dedup, hin, hadj]
  · intro r _
    exact adjMismatchCount_eq_zero_iff r.trips
  · intro r _ _
    exact rotationDeleteOps_order r

/-- C4 witness: on the two-rotation fixture exC4 (one valid chain, one
broken chain) the connectivity step succeeds and the theorem applies. -/
theorem C4_witness :
    delete_invalid_rotations exC4 = Except.ok exC4out ∧
    ((∃ ids, rotations_to_delete exC4 = Except.ok ids ∧ ids.Nodup) ∧
      exC4out.rotations = exC4.rotations.filter (fun r => adjMismatchCount r.trips == 0) ∧
      (∀ r ∈ exC4.rotations, (adjMismatchCount r.trips = 0 ↔ noMismatch r.trips)) ∧
      (∀ r ∈ exC4.rotations, adjMismatchCount r.trips ≠ 0 →
        ((rotationDeleteOps r).getLast? = some (DeleteOp.rotation_op r.id) ∧
          ∀ t ∈ r.trips, (tripDeleteOps t).getLast? = some (DeleteOp.trip_op t.id) ∧
            ∃ pre post, rotationDeleteOps r = pre ++ tripDeleteOps t ++ post ∧
              DeleteOp.rotation_op r.id ∈ post))) :=
  ⟨rfl, C4_connectivity_prunes_whole_rotations exC4 exC4out (by decide) (by decide) rfl⟩

/-- C10: a rotation with fewer than two trips passes the connectivity
scan without any out-of-range read and without being flagged (the scan
returns zero flags rather than an error), and so survives the
connectivity step unchanged, together with its trips. -/
theorem C10_short_rotation_survives (r : Rotation) (s s2 : Scenario)
    (hlen : r.trips.length < 2)
    (hmem : r ∈ s.rotations)
    (hR : (s.rotations.map Rotation.id).Nodup)
    (h : delete_invalid_rotations s = Except.ok s2) :
    flagCountE r.trips = Except.ok 0 ∧ r ∈ s2.rotations := by
  have hflag : flagCountE r.trips = Except.ok 0 := by
    cases hts : r.trips with
    | nil => rfl
    | cons t rest =>
      cases rest with
      | nil =>
        unfold flagCountE
        rw [List.getLast?_singleton]
        dsimp only
        rw [show ([t] : List Trip).enum = [(0, t)] from rfl]
        rw [flagCountAux_cons, if_pos rfl]
        rfl
      | cons t2 rest2 =>
        rw [hts] at hlen
        simp only [List.length_cons] at hlen
        omega
  refine ⟨hflag, ?_⟩
  obtain ⟨ids0, hscan, hmemids⟩ := scanRotations_spec s.rotations
  have hrtd : rotations_to_delete s = Except.ok ids0.dedup := by
    unfold rotations_to_delete
    rw [hscan]
  unfold delete_invalid_rotations at h
  rw [hrtd] at h
  simp only [Except.ok.injEq] at h
  have hnot : r.id ∉ ids0 := by
    intro hin
    obtain ⟨r2, hr2, hid, m, hm, hm0⟩ := (hmemids r.id).mp hin
    have hrr : r2 = r := rotation_id_inj s.rotations hR r2 hr2 r hmem hid
    subst hrr
    exact hm0 (Except.ok.inj (hm.symm.trans hflag))
  rw [← h]
  refine List.mem_filter.mpr ⟨hmem, ?_⟩
  have hc : ids0.dedup.contains r.id = decide (r.id ∈ ids0.dedup) :=
    List.elem_eq_mem r.id ids0.dedup
  rw [hc]
  simp [List.mem_dedup, hnot]

/-- C10 witness: the single-trip fixture survives the connectivity step
of exC10 unchanged. -/
theorem C10_witness :
    rotSingle.trips.length < 2 ∧
    delete_invalid_rotations exC10 = Except.ok exC10 ∧
    (flagCountE rotSingle.trips = Except.ok 0 ∧ rotSingle ∈ exC10.rotations) :=
  ⟨by decide, rfl,
    C10_short_rotation_survives rotSingle exC10 exC10 (by decide) (by decide) (by decide) rfl⟩
